import Mathlib

/-!
Verification of the SMSC server core (`vumi/workers/smpp/server.py`).

The byte stream is modelled as `List Nat` (one entry per byte of the Python
string `self.datastream`).  `popData`, `handleData`, the three command
handlers, `delivery_report` and the drain loop of `dataReceived` are
translated directly from the source.  External collaborators are modelled at
their boundary: the PDU codec's decoded dictionaries become the `Pdu`
structure (only the fields the core reads), the response builders become the
`OutPdu` constructors, `uuid.uuid4()` becomes a fresh-identifier counter
threaded through the server state, and the two `datetime.now()` calls of
`delivery_report` become the `now` field of the state.
-/

namespace Vumi

/-- The length field read by `popData`:
`int(binascii.b2a_hex(self.datastream[0:4]), 16)`, i.e. the big-endian
value of the first four bytes of the stream. -/
def commandLength (s : List Nat) : Nat :=
  (s.take 4).foldl (fun acc b => acc * 256 + b) 0

/-- `SmscServer.popData`: if at least 16 bytes are buffered and the buffer
holds at least `commandLength` bytes, split off that many bytes as the frame;
otherwise return `none` and leave the buffer unchanged.  The pair is
(returned `data`, updated `self.datastream`). -/
def popData (s : List Nat) : Option (List Nat) × List Nat :=
  if 16 ≤ s.length then
    if commandLength s ≤ s.length then
      (some (s.take (commandLength s)), s.drop (commandLength s))
    else (none, s)
  else (none, s)

/-- A well-formed wire frame: at least the 16 header bytes, and the declared
length field equal to the actual length. -/
def ValidFrame (f : List Nat) : Prop :=
  16 ≤ f.length ∧ commandLength f = f.length

instance (f : List Nat) : Decidable (ValidFrame f) := by
  unfold ValidFrame; infer_instance

/-- A strictly partial frame: a proper leading part of some valid frame
(the nonempty tail `t` is still missing). -/
def IncompleteFrame (p : List Nat) : Prop :=
  ∃ g t, ValidFrame g ∧ p ++ t = g ∧ t ≠ []

/-- Graph of the `while data != None:` drain loop in
`SmscServer.dataReceived`: `DrainsTo s fs r` holds when, starting from
buffer `s`, repeatedly calling `popData` returns the frames `fs` in order
and stops (returns `None`) with buffer `r`. -/
inductive DrainsTo : List Nat → List (List Nat) → List Nat → Prop
  | done (s : List Nat) : (popData s).1 = none → DrainsTo s [] s
  | step (s f s1 r : List Nat) (fs : List (List Nat)) :
      popData s = (some f, s1) → DrainsTo s1 fs r → DrainsTo s (f :: fs) r

/-- The drain loop terminates on buffer `s`, yielding some frames and a
final buffer. -/
def DrainTerminating (s : List Nat) : Prop :=
  ∃ fs r, DrainsTo s fs r

/-- Repeated `dataReceived` calls: `FeedTo b cs fs r` holds when, starting
from buffer `b`, appending each chunk of `cs` in turn and draining after
every append extracts the frames `fs` in order and ends with buffer `r`. -/
inductive FeedTo : List Nat → List (List Nat) → List (List Nat) → List Nat → Prop
  | nil (b : List Nat) : FeedTo b [] [] b
  | cons (b c b1 b2 : List Nat) (cs fs gs : List (List Nat)) :
      DrainsTo (b ++ c) fs b1 → FeedTo b1 cs gs b2 →
      FeedTo b (c :: cs) (fs ++ gs) b2

/-- The header fields of a decoded PDU, as produced by the codec's
`unpack_pdu`: `pdu['header']` with `command_id`, `command_status` (both
symbolic strings) and `sequence_number`. -/
structure PduHeader where
  command_id : String
  command_status : String
  sequence_number : Nat
  deriving DecidableEq

/-- The decoded PDU restricted to the fields the core reads:
`pdu['header']` and `pdu['body']['mandatory_parameters']['system_id']`
(only consulted by the bind handler). -/
structure Pdu where
  header : PduHeader
  system_id : String
  deriving DecidableEq

/-- The outbound PDUs the server constructs via the codec's builders:
`BindTransceiverResp`, `EnquireLinkResp`, `SubmitSMResp` and `DeliverSM`,
with exactly the arguments the source passes.  Message identifiers are the
values drawn from the fresh-identifier supply that models `uuid.uuid4()`. -/
inductive OutPdu where
  | bindTransceiverResp (sequence_number : Nat) (system_id : String)
  | enquireLinkResp (sequence_number : Nat)
  | submitSMResp (sequence_number : Nat) (message_id : Nat)
  | deliverSM (sequence_number : Nat) (short_message : String)
  deriving DecidableEq

/-- The per-connection state of `SmscServer`.  The class itself holds only
`self.datastream`; `nextMessageId` models the `uuid.uuid4()` allocator as a
fresh-identifier counter (the allocator's contract: every draw is new), and
`now` models the wall-clock string `datetime.now().strftime(...)` read by
`delivery_report`. -/
structure ServerState where
  datastream : List Nat
  nextMessageId : Nat
  now : String
  deriving DecidableEq

/-- Advance the fresh-identifier supply by one draw. -/
def drawId (st : ServerState) : ServerState :=
  ServerState.mk st.datastream (st.nextMessageId + 1) st.now

/-- The `short_message` built by `SmscServer.delivery_report`:
`'id:%s sub:001 dlvrd:001 submit date:%s done date:%s stat:DELIVRD err:000 text:'`
with the message identifier (rendered in decimal, standing for the uuid
string) and the two wall-clock reads. -/
def deliveryText (message_id : Nat) (now : String) : String :=
  "id:" ++ Nat.repr message_id ++ " sub:001 dlvrd:001 submit date:" ++ now ++
    " done date:" ++ now ++ " stat:DELIVRD err:000 text:"

/-- `SmscServer.delivery_report`: one `DeliverSM` with the literal
sequence number 1 and the formatted delivery-report body. -/
def delivery_report (st : ServerState) (message_id : Nat) : List OutPdu :=
  [OutPdu.deliverSM 1 (deliveryText message_id st.now)]

/-- `SmscServer.handle_bind_transceiver`: on `ESME_ROK`, send one
`BindTransceiverResp` echoing the sequence number and `system_id`;
otherwise do nothing.  No state is touched.  The pair is
(state after the handler, PDUs passed to `sendPDU` in order). -/
def handle_bind_transceiver (st : ServerState) (pdu : Pdu) :
    ServerState × List OutPdu :=
  if pdu.header.command_status = "ESME_ROK" then
    (st, [OutPdu.bindTransceiverResp pdu.header.sequence_number pdu.system_id])
  else
    (st, [])

/-- `SmscServer.handle_enquire_link`: on `ESME_ROK`, send one
`EnquireLinkResp` echoing the sequence number; otherwise do nothing. -/
def handle_enquire_link (st : ServerState) (pdu : Pdu) :
    ServerState × List OutPdu :=
  if pdu.header.command_status = "ESME_ROK" then
    (st, [OutPdu.enquireLinkResp pdu.header.sequence_number])
  else
    (st, [])

/-- `SmscServer.handle_submit_sm`: on `ESME_ROK`, draw a fresh message
identifier, send one `SubmitSMResp` echoing the sequence number and carrying
the identifier, then send the delivery report for that identifier;
otherwise do nothing. -/
def handle_submit_sm (st : ServerState) (pdu : Pdu) :
    ServerState × List OutPdu :=
  if pdu.header.command_status = "ESME_ROK" then
    let message_id := st.nextMessageId
    (drawId st,
      OutPdu.submitSMResp pdu.header.sequence_number message_id ::
        delivery_report (drawId st) message_id)
  else
    (st, [])

/-- `SmscServer.handleData` (after the codec's `unpack_pdu`): three
sequential `if` tests on `command_id`, each running its handler; the
commented-out `deliver_sm` branch is absent.  Outbound PDUs are collected
in `sendPDU` order. -/
def handleData (st : ServerState) (pdu : Pdu) : ServerState × List OutPdu :=
  let r1 :=
    if pdu.header.command_id = "bind_transceiver" then
      handle_bind_transceiver st pdu
    else (st, [])
  let r2 :=
    if pdu.header.command_id = "submit_sm" then
      handle_submit_sm r1.1 pdu
    else (r1.1, [])
  let r3 :=
    if pdu.header.command_id = "enquire_link" then
      handle_enquire_link r2.1 pdu
    else (r2.1, [])
  (r3.1, r1.2 ++ r2.2 ++ r3.2)

/-- Dispatch a sequence of decoded PDUs one after the other (the order in
which complete frames are handled), collecting all outbound PDUs. -/
def runPdus : ServerState → List Pdu → ServerState × List OutPdu
  | st, [] => (st, [])
  | st, p :: ps =>
      let r1 := handleData st p
      let r2 := runPdus r1.1 ps
      (r2.1, r1.2 ++ r2.2)

/-- The message identifiers carried by the `SubmitSMResp` PDUs of an
outbound sequence, in order. -/
def messageIds (outs : List OutPdu) : List Nat :=
  outs.filterMap fun o =>
    match o with
    | OutPdu.submitSMResp _ mid => some mid
    | _ => none

/-- The sequence number carried by an outbound PDU. -/
def outSeq : OutPdu → Nat
  | OutPdu.bindTransceiverResp sq _ => sq
  | OutPdu.enquireLinkResp sq => sq
  | OutPdu.submitSMResp sq _ => sq
  | OutPdu.deliverSM sq _ => sq

/-- Whether an outbound PDU is an unsolicited notification (`DeliverSM`)
rather than a direct reply to a request. -/
def isNotification : OutPdu → Bool
  | OutPdu.deliverSM _ _ => true
  | _ => false

/-! Concrete data used by the closed instance theorems. -/

/-- A valid 16-byte frame (header only). -/
def frameW1 : List Nat := 0 :: 0 :: 0 :: 16 :: List.replicate 12 1

/-- A valid 17-byte frame (one parameter byte). -/
def frameW2 : List Nat := 0 :: 0 :: 0 :: 17 :: List.replicate 13 2

/-- Five leading bytes of `fullW`: a strictly incomplete frame. -/
def partW : List Nat := [0, 0, 0, 20, 5]

/-- A valid 20-byte frame of which `partW` is the strict leading part. -/
def fullW : List Nat := 0 :: 0 :: 0 :: 20 :: 5 :: List.replicate 15 0

/-- Three chunks cutting `frameW1 ++ frameW2 ++ partW` at positions 10 and 30,
so both frames span a chunk boundary. -/
def chunksW : List (List Nat) :=
  [(frameW1 ++ frameW2 ++ partW).take 10,
   ((frameW1 ++ frameW2 ++ partW).drop 10).take 20,
   (frameW1 ++ frameW2 ++ partW).drop 30]

/-- A freshly constructed connection state. -/
def stW : ServerState := ServerState.mk [] 0 "t"

/-- A successful bind request, sequence 7, identity `"foo"`. -/
def bindPduW : Pdu := Pdu.mk (PduHeader.mk "bind_transceiver" "ESME_ROK" 7) "foo"

/-- The same bind request with a different identity. -/
def bindPduW2 : Pdu := Pdu.mk (PduHeader.mk "bind_transceiver" "ESME_ROK" 7) "bar"

/-- A successful submit request, sequence 42. -/
def submitPduW : Pdu := Pdu.mk (PduHeader.mk "submit_sm" "ESME_ROK" 42) "sys"

/-- A second successful submit request, sequence 43. -/
def submitPduW2 : Pdu := Pdu.mk (PduHeader.mk "submit_sm" "ESME_ROK" 43) "sys"

/-- A bind request with a failure status. -/
def failPduW : Pdu := Pdu.mk (PduHeader.mk "bind_transceiver" "ESME_RINVPASWD" 9) "foo"

/-- A command whose identifier has no handler. -/
def unknownPduW : Pdu := Pdu.mk (PduHeader.mk "deliver_sm" "ESME_ROK" 11) "sys"

/-! ## Supporting lemmas: the frame buffer -/

theorem popData_of_lt (s : List Nat) (h : s.length < 16) : popData s = (none, s) := by
  unfold popData
  rw [if_neg (by omega)]

theorem popData_of_short (s : List Nat) (h16 : 16 ≤ s.length)
    (h : s.length < commandLength s) : popData s = (none, s) := by
  unfold popData
  rw [if_pos h16, if_neg (by omega)]

theorem popData_of_complete (s : List Nat) (h16 : 16 ≤ s.length)
    (h : commandLength s ≤ s.length) :
    popData s = (some (s.take (commandLength s)), s.drop (commandLength s)) := by
  unfold popData
  rw [if_pos h16, if_pos h]

theorem commandLength_append (f t : List Nat) (h : 4 ≤ f.length) :
    commandLength (f ++ t) = commandLength f := by
  unfold commandLength
  rw [List.take_append_eq_append_take, Nat.sub_eq_zero_of_le h, List.take_zero,
    List.append_nil]

theorem popData_frame (f t : List Nat) (hf : ValidFrame f) :
    popData (f ++ t) = (some f, t) := by
  obtain ⟨h16, hlen⟩ := hf
  have h4 : 4 ≤ f.length := by omega
  have hcl : commandLength (f ++ t) = f.length := by
    rw [commandLength_append f t h4, hlen]
  have hlen2 : 16 ≤ (f ++ t).length := by
    rw [List.length_append]; omega
  rw [popData_of_complete _ hlen2 (by rw [hcl, List.length_append]; omega), hcl,
    List.take_left, List.drop_left]

theorem incompleteOfLead (p q u : List Nat) (hp : IncompleteFrame p)
    (h : q ++ u = p) : IncompleteFrame q := by
  obtain ⟨g, t, hg, hcat, hne⟩ := hp
  refine ⟨g, u ++ t, hg, by rw [← List.append_assoc, h, hcat], ?_⟩
  intro hc
  exact hne (List.append_eq_nil.mp hc).2

theorem popData_incomplete (p : List Nat) (hp : IncompleteFrame p) :
    popData p = (none, p) := by
  obtain ⟨g, t, ⟨hg16, hglen⟩, hcat, hne⟩ := hp
  have htlen : 0 < t.length := by
    cases t with
    | nil => exact absurd rfl hne
    | cons a t => simp
  have hlt : p.length < g.length := by
    have hl := congrArg List.length hcat
    rw [List.length_append] at hl
    omega
  by_cases h16 : 16 ≤ p.length
  · have h4 : 4 ≤ p.length := by omega
    have hcl : commandLength p = g.length := by
      rw [← hglen, ← hcat, commandLength_append p t h4]
    exact popData_of_short p h16 (by omega)
  · exact popData_of_lt p (by omega)

theorem drain_split (fs : List (List Nat)) (p : List Nat)
    (hf : ∀ f ∈ fs, ValidFrame f) (hp : IncompleteFrame p) :
    ∀ s t, s ++ t = fs.flatten ++ p →
      ∃ fs1 fs2 b, fs = fs1 ++ fs2 ∧ s = fs1.flatten ++ b ∧
        DrainsTo s fs1 b ∧ popData b = (none, b) ∧ b ++ t = fs2.flatten ++ p := by
  induction fs with
  | nil =>
    intro s t hcat
    simp only [List.flatten_nil, List.nil_append] at hcat
    have hs : IncompleteFrame s := incompleteOfLead p s t hp hcat
    have hpop := popData_incomplete s hs
    exact ⟨[], [], s, rfl, by simp, DrainsTo.done s (by rw [hpop]), hpop,
      by simpa using hcat⟩
  | cons g gs ih =>
    intro s t hcat
    have hcat2 : s ++ t = g ++ (gs.flatten ++ p) := by simpa using hcat
    by_cases hsg : g.length ≤ s.length
    · have htake : s.take g.length = g := by
        have h1 : (s ++ t).take g.length = s.take g.length := by
          rw [List.take_append_eq_append_take, Nat.sub_eq_zero_of_le hsg,
            List.take_zero, List.append_nil]
        have h2 : (g ++ (gs.flatten ++ p)).take g.length = g := List.take_left g _
        rw [← h1, hcat2, h2]
      have hsplit : s = g ++ s.drop g.length := by
        conv_lhs => rw [← List.take_append_drop g.length s, htake]
      have hrest : s.drop g.length ++ t = gs.flatten ++ p := by
        have hx := hcat2
        rw [hsplit, List.append_assoc] at hx
        exact List.append_cancel_left hx
      obtain ⟨fs1, fs2, b, hfs, hs, hdr, hpop, hbt⟩ :=
        ih (fun f h => hf f (by simp [h])) (s.drop g.length) t hrest
      refine ⟨g :: fs1, fs2, b, by rw [hfs]; rfl, ?_, ?_, hpop, hbt⟩
      · rw [hsplit, hs]; simp
      · rw [hsplit]
        exact DrainsTo.step _ g _ b fs1
          (popData_frame g _ (hf g (by simp))) (hs ▸ hdr)
    · have hlts : s.length < g.length := by omega
      have htake : s = g.take s.length := by
        have h1 : (s ++ t).take s.length = s := List.take_left s t
        have h2 : (g ++ (gs.flatten ++ p)).take s.length
            = g.take s.length ++ (gs.flatten ++ p).take (s.length - g.length) := by
          rw [List.take_append_eq_append_take]
        rw [hcat2] at h1
        rw [h2, Nat.sub_eq_zero_of_le (by omega), List.take_zero,
          List.append_nil] at h1
        exact h1.symm
      have hlead : s ++ g.drop s.length = g := by
        conv_rhs => rw [← List.take_append_drop s.length g, ← htake]
      have hne : g.drop s.length ≠ [] := by
        intro hc
        have hlen := congrArg List.length hc
        rw [List.length_drop] at hlen
        simp at hlen
        omega
      have hs : IncompleteFrame s := ⟨g, g.drop s.length, hf g (by simp), hlead, hne⟩
      have hpop := popData_incomplete s hs
      exact ⟨[], g :: gs, s, rfl, by simp, DrainsTo.done s (by rw [hpop]), hpop,
        by simpa using hcat⟩

theorem feed_general (cs : List (List Nat)) :
    ∀ fs p b, (∀ f ∈ fs, ValidFrame f) → IncompleteFrame p →
      popData b = (none, b) → b ++ cs.flatten = fs.flatten ++ p →
      FeedTo b cs fs p := by
  induction cs with
  | nil =>
    intro fs p b hf hp hb hcat
    simp only [List.flatten_nil, List.append_nil] at hcat
    cases fs with
    | nil =>
      simp only [List.flatten_nil, List.nil_append] at hcat
      rw [hcat]
      exact FeedTo.nil p
    | cons g gs =>
      exfalso
      have hx : b = g ++ (gs.flatten ++ p) := by simpa using hcat
      rw [hx, popData_frame g _ (hf g (by simp))] at hb
      simp at hb
  | cons c cs ih =>
    intro fs p b hf hp hb hcat
    have hcat2 : (b ++ c) ++ cs.flatten = fs.flatten ++ p := by
      simpa [List.append_assoc] using hcat
    obtain ⟨fs1, fs2, b1, hfs, hs, hdr, hpop, hbt⟩ :=
      drain_split fs p hf hp (b ++ c) cs.flatten hcat2
    subst hfs
    exact FeedTo.cons b c b1 p cs fs1 fs2 hdr
      (ih fs2 p b1 (fun f h => hf f (by simp [h])) hp hpop hbt)

theorem drainsTo_det (s : List Nat) (fs : List (List Nat)) (r : List Nat)
    (h : DrainsTo s fs r) :
    ∀ gs q, DrainsTo s gs q → gs = fs ∧ q = r := by
  induction h with
  | done s hn =>
    intro gs q hg
    cases hg with
    | done _ => exact ⟨rfl, rfl⟩
    | step _ f s1 _ _ hpop _ => rw [hpop] at hn; simp at hn
  | step s f s1 r fs hpop hdr ih =>
    intro gs q hg
    cases hg with
    | done _ hn => rw [hpop] at hn; simp at hn
    | step _ f2 s2 _ gs2 hpop2 hdr2 =>
      have heq := hpop.symm.trans hpop2
      have hf : f = f2 := by
        have hfst := congrArg Prod.fst heq
        simpa using hfst
      have hs : s1 = s2 := congrArg Prod.snd heq
      obtain ⟨h1, h2⟩ := ih gs2 q (hs ▸ hdr2)
      exact ⟨by rw [h1, hf], h2⟩

theorem feedTo_det (b : List Nat) (cs fs : List (List Nat)) (r : List Nat)
    (h : FeedTo b cs fs r) :
    ∀ gs q, FeedTo b cs gs q → gs = fs ∧ q = r := by
  induction h with
  | nil b =>
    intro gs q hg
    cases hg with
    | nil => exact ⟨rfl, rfl⟩
  | cons b c b1 b2 cs fs1 gs1 hdr hfd ih =>
    intro gs q hg
    cases hg with
    | cons _ _ b3 _ _ fs2 gs2 hdr2 hfd2 =>
      obtain ⟨h1, h2⟩ := drainsTo_det _ _ _ hdr fs2 b3 hdr2
      obtain ⟨h3, h4⟩ := ih gs2 q (h2 ▸ hfd2)
      exact ⟨by rw [h1, h3], h4⟩

theorem no_drain_of_stutter (s : List Nat) (fs : List (List Nat)) (r : List Nat)
    (h : DrainsTo s fs r) : popData s = (some [], s) → False := by
  induction h with
  | done s hn =>
    intro he
    rw [he] at hn
    simp at hn
  | step s f s1 r fs hpop hdr ih =>
    intro he
    have heq := hpop.symm.trans he
    have hs : s1 = s := congrArg Prod.snd heq
    exact ih (by rw [hs]; exact he)

/-! ## Supporting lemmas: the dispatcher -/

theorem handleData_out_cases (st : ServerState) (pdu : Pdu) (o : OutPdu)
    (ho : o ∈ (handleData st pdu).2) :
    o = OutPdu.bindTransceiverResp pdu.header.sequence_number pdu.system_id ∨
    o = OutPdu.enquireLinkResp pdu.header.sequence_number ∨
    o = OutPdu.submitSMResp pdu.header.sequence_number st.nextMessageId ∨
    o = OutPdu.deliverSM 1 (deliveryText st.nextMessageId st.now) := by
  unfold handleData handle_bind_transceiver handle_submit_sm handle_enquire_link
    delivery_report drawId at ho
  split_ifs at ho <;> simp_all

theorem handleData_deliver_seq (st : ServerState) (pdu : Pdu) (o : OutPdu)
    (ho : o ∈ (handleData st pdu).2) (hn : isNotification o = true) :
    outSeq o = 1 := by
  rcases handleData_out_cases st pdu o ho with h | h | h | h <;> subst h <;>
    simp_all [outSeq, isNotification]

theorem handleData_echo_seq (st : ServerState) (pdu : Pdu) (o : OutPdu)
    (ho : o ∈ (handleData st pdu).2) (hn : isNotification o = false) :
    outSeq o = pdu.header.sequence_number := by
  rcases handleData_out_cases st pdu o ho with h | h | h | h <;> subst h <;>
    simp_all [outSeq, isNotification]

theorem submit_step (st : ServerState) (q : Pdu)
    (hc : q.header.command_id = "submit_sm")
    (hs : q.header.command_status = "ESME_ROK") :
    handleData st q =
      (ServerState.mk st.datastream (st.nextMessageId + 1) st.now,
        [OutPdu.submitSMResp q.header.sequence_number st.nextMessageId,
         OutPdu.deliverSM 1 (deliveryText st.nextMessageId st.now)]) := by
  simp [handleData, handle_submit_sm, delivery_report, drawId, hc, hs]

theorem runPdus_submit_ids (pdus : List Pdu) :
    ∀ st : ServerState,
      (∀ q ∈ pdus, q.header.command_id = "submit_sm" ∧
        q.header.command_status = "ESME_ROK") →
      messageIds (runPdus st pdus).2 = List.range' st.nextMessageId pdus.length := by
  induction pdus with
  | nil =>
    intro st h
    simp [runPdus, messageIds]
  | cons q qs ih =>
    intro st h
    obtain ⟨hc, hs⟩ := h q (by simp)
    have hstep := submit_step st q hc hs
    have hrec := ih (ServerState.mk st.datastream (st.nextMessageId + 1) st.now)
      (fun r hr => h r (by simp [hr]))
    have hrun : (runPdus st (q :: qs)).2
        = (handleData st q).2 ++ (runPdus (handleData st q).1 qs).2 := rfl
    have happ : ∀ l1 l2 : List OutPdu,
        messageIds (l1 ++ l2) = messageIds l1 ++ messageIds l2 :=
      fun l1 l2 => List.filterMap_append l1 l2 _
    have hhead : messageIds
        [OutPdu.submitSMResp q.header.sequence_number st.nextMessageId,
         OutPdu.deliverSM 1 (deliveryText st.nextMessageId st.now)]
        = [st.nextMessageId] := rfl
    rw [hrun, hstep, happ, hhead, hrec]
    simp [List.range'_succ]

theorem run_deliver_seq (pdus : List Pdu) :
    ∀ (st : ServerState) (sq : Nat) (m : String),
      OutPdu.deliverSM sq m ∈ (runPdus st pdus).2 → sq = 1 := by
  induction pdus with
  | nil =>
    intro st sq m h
    simp [runPdus] at h
  | cons q qs ih =>
    intro st sq m h
    simp only [runPdus, List.mem_append] at h
    rcases h with h | h
    · have hx := handleData_deliver_seq st q (OutPdu.deliverSM sq m) h rfl
      simpa [outSeq] using hx
    · exact ih _ sq m h

/-! ## The claims -/

/-- Claim C1: `popData` follows the specified algorithm.  For every buffer
state: with fewer than 16 bytes buffered it returns not-available and leaves
the buffer unchanged; otherwise, with `n` the big-endian integer in the
first 4 bytes, if the buffered length is less than `n` it returns
not-available and leaves the buffer unchanged (a frame is only consumed once
its full declared length is present); otherwise it removes and returns
exactly the first `n` bytes as the frame, leaving the remaining bytes
buffered in order. -/
theorem popData_algorithm (s : List Nat) :
    (s.length < 16 → popData s = (none, s)) ∧
    (16 ≤ s.length → s.length < commandLength s → popData s = (none, s)) ∧
    (16 ≤ s.length → commandLength s ≤ s.length →
      popData s = (some (s.take (commandLength s)), s.drop (commandLength s)) ∧
      (s.take (commandLength s)).length = commandLength s ∧
      s.take (commandLength s) ++ s.drop (commandLength s) = s) :=
  ⟨popData_of_lt s, popData_of_short s, fun h16 hn =>
    ⟨popData_of_complete s h16 hn, by rw [List.length_take]; omega,
      List.take_append_drop _ s⟩⟩

/-- Witness for C1: the three branches at concrete buffers — 15 bytes
(too short to read a length), 16 bytes declaring 17 (frame not yet
complete), and 16 bytes declaring 16 (a complete frame is removed). -/
theorem popData_algorithm_wit :
    popData (List.replicate 15 0) = (none, List.replicate 15 0) ∧
      popData (0 :: 0 :: 0 :: 17 :: List.replicate 12 0)
        = (none, 0 :: 0 :: 0 :: 17 :: List.replicate 12 0) ∧
      popData (0 :: 0 :: 0 :: 16 :: List.replicate 12 0)
        = (some ((0 :: 0 :: 0 :: 16 :: List.replicate 12 0).take
            (commandLength (0 :: 0 :: 0 :: 16 :: List.replicate 12 0))),
           (0 :: 0 :: 0 :: 16 :: List.replicate 12 0).drop
            (commandLength (0 :: 0 :: 0 :: 16 :: List.replicate 12 0))) :=
  ⟨(popData_algorithm _).1 (by decide),
    (popData_algorithm _).2.1 (by decide) (by decide),
    ((popData_algorithm _).2.2 (by decide) (by decide)).1⟩

/-- Claim C2: framing composition.  For every sequence of byte chunks whose
concatenation is the back-to-back encoding of the valid frames `frames`
(declared length at least 16 and equal to the actual length) followed by a
strictly incomplete frame `p`, appending the chunks in order and draining
`popData` until not-available after each append (the `dataReceived` loop)
yields exactly `frames`, in order, with exactly `p` left buffered: the run
exists and every run produces this result. -/
theorem framing_composition (chunks frames : List (List Nat)) (p : List Nat)
    (hF : ∀ f ∈ frames, ValidFrame f) (hp : IncompleteFrame p)
    (hcat : chunks.flatten = frames.flatten ++ p) :
    FeedTo [] chunks frames p ∧
      ∀ gs q, FeedTo [] chunks gs q → gs = frames ∧ q = p := by
  have hmain : FeedTo [] chunks frames p :=
    feed_general chunks frames p [] hF hp (by decide) (by simpa using hcat)
  exact ⟨hmain, fun gs q hg => feedTo_det [] chunks frames p hmain gs q hg⟩

/-- Witness for C2: two valid frames (16 and 17 bytes) plus a 5-byte
strict leading part of a 20-byte frame, delivered as three chunks that cut
both frames across chunk boundaries. -/
theorem framing_composition_wit : FeedTo [] chunksW [frameW1, frameW2] partW :=
  (framing_composition chunksW [frameW1, frameW2] partW (by decide)
    ⟨fullW, List.replicate 15 0, by decide, by decide, by decide⟩ (by decide)).1

/-- Counterexample to C3: on a 16-byte buffer whose first 4 bytes declare
length 4, `popData` does yield a frame — the first 4 bytes — rather than
signalling any framing fault.  This contradicts the claim that such a
buffer never yields a frame. -/
theorem short_decl_counter :
    popData (0 :: 0 :: 0 :: 4 :: List.replicate 12 0)
      = (some [0, 0, 0, 4], List.replicate 12 0) := by decide

/-- Claim C3 as amended: no framing fault exists in the code.  For every
buffer of at least 16 bytes whose first 4 bytes declare length 4,
`popData` extracts and returns the first 4 bytes as a (truncated) frame and
leaves the rest buffered. -/
theorem short_decl_extracts (s : List Nat) (h16 : 16 ≤ s.length)
    (h4 : commandLength s = 4) :
    popData s = (some (s.take 4), s.drop 4) := by
  have hx := popData_of_complete s h16 (by omega)
  rw [h4] at hx
  exact hx

/-- Witness for the amended C3: a concrete 17-byte buffer declaring
length 4. -/
theorem short_decl_extracts_wit :
    popData (0 :: 0 :: 0 :: 4 :: List.replicate 13 7)
      = (some ((0 :: 0 :: 0 :: 4 :: List.replicate 13 7).take 4),
         (0 :: 0 :: 0 :: 4 :: List.replicate 13 7).drop 4) :=
  short_decl_extracts _ (by decide) (by decide)

/-- Counterexample to C4: the bind handler records nothing.  Handling a
successful bind with identity `"foo"` leaves the entire per-connection
state unchanged, and the post-state is identical to the post-state for
identity `"bar"` — so no session transition happens and no identity is
recorded anywhere in the server state. -/
theorem bind_records_nothing :
    (handleData stW bindPduW).1 = stW ∧
      (handleData stW bindPduW).1 = (handleData stW bindPduW2).1 := by decide

/-- Claim C4 as amended: for every bind command with success status,
sequence number `s` and identity `i`, dispatch produces exactly one
outbound bind-acknowledgment carrying `s` and `i`; the server keeps no
session state, so the connection state is unchanged. -/
theorem bind_dispatch (st : ServerState) (pdu : Pdu)
    (hc : pdu.header.command_id = "bind_transceiver")
    (hs : pdu.header.command_status = "ESME_ROK") :
    handleData st pdu =
      (st, [OutPdu.bindTransceiverResp pdu.header.sequence_number
        pdu.system_id]) := by
  simp [handleData, handle_bind_transceiver, hc, hs]

/-- Witness for the amended C4: a successful bind, sequence 7, identity
`"foo"`. -/
theorem bind_dispatch_wit :
    handleData stW bindPduW
      = (stW, [OutPdu.bindTransceiverResp bindPduW.header.sequence_number
          bindPduW.system_id]) :=
  bind_dispatch stW bindPduW (by decide) (by decide)

/-- Claim C5: for every submit command with success status and sequence
number `s`, dispatch produces exactly two outbound commands in order: a
submit-acknowledgment with sequence number `s` carrying the freshly
allocated identifier `X`, then a delivery notification with body containing
(the rendering of) `X` and the fixed delivered marker `stat:DELIVRD`. -/
theorem submit_dispatch (st : ServerState) (pdu : Pdu)
    (hc : pdu.header.command_id = "submit_sm")
    (hs : pdu.header.command_status = "ESME_ROK") :
    ∃ X m,
      handleData st pdu =
        (ServerState.mk st.datastream (st.nextMessageId + 1) st.now,
          [OutPdu.submitSMResp pdu.header.sequence_number X,
           OutPdu.deliverSM 1 m]) ∧
      (∃ a b, m = a ++ Nat.repr X ++ b) ∧
      (∃ a b, m = a ++ "stat:DELIVRD" ++ b) := by
  refine ⟨st.nextMessageId, deliveryText st.nextMessageId st.now, ?_, ?_, ?_⟩
  · simp [handleData, handle_submit_sm, delivery_report, drawId, hc, hs]
  · exact ⟨"id:", " sub:001 dlvrd:001 submit date:" ++ st.now ++
      " done date:" ++ st.now ++ " stat:DELIVRD err:000 text:", by
        simp [deliveryText, String.append_assoc]⟩
  · refine ⟨"id:" ++ Nat.repr st.nextMessageId ++
      " sub:001 dlvrd:001 submit date:" ++ st.now ++ " done date:" ++
      st.now ++ " ", " err:000 text:", ?_⟩
    simp [deliveryText, String.append_assoc]

/-- Witness for C5: a successful submit with sequence number 42 on a fresh
connection. -/
theorem submit_dispatch_wit :
    ∃ X m,
      handleData stW submitPduW =
        (ServerState.mk stW.datastream (stW.nextMessageId + 1) stW.now,
          [OutPdu.submitSMResp submitPduW.header.sequence_number X,
           OutPdu.deliverSM 1 m]) ∧
      (∃ a b, m = a ++ Nat.repr X ++ b) ∧
      (∃ a b, m = a ++ "stat:DELIVRD" ++ b) :=
  submit_dispatch stW submitPduW (by decide) (by decide)

/-- Claim C6: for every decoded command whose status is not `ESME_ROK`,
and for every command whose identifier is none of `bind_transceiver`,
`submit_sm`, `enquire_link`, dispatch produces zero outbound commands and
leaves the connection state unchanged. -/
theorem noop_dispatch (st : ServerState) (pdu : Pdu)
    (h : pdu.header.command_status ≠ "ESME_ROK" ∨
      (pdu.header.command_id ≠ "bind_transceiver" ∧
       pdu.header.command_id ≠ "submit_sm" ∧
       pdu.header.command_id ≠ "enquire_link")) :
    handleData st pdu = (st, []) := by
  rcases h with h | ⟨h1, h2, h3⟩
  · unfold handleData handle_bind_transceiver handle_submit_sm handle_enquire_link
    split_ifs <;> simp_all
  · simp [handleData, h1, h2, h3]

/-- Witness for C6: a failed-status bind and an unrecognized command
identifier, both no-ops. -/
theorem noop_dispatch_wit :
    handleData stW failPduW = (stW, []) ∧
      handleData stW unknownPduW = (stW, []) :=
  ⟨noop_dispatch stW failPduW (Or.inl (by decide)),
    noop_dispatch stW unknownPduW (Or.inr ⟨by decide, by decide, by decide⟩)⟩

/-- Claim C7: sequence-number echo invariant.  Every outbound command a
dispatch produces that is a direct reply (bind-, submit- or link-check
acknowledgment) carries the sequence number of the command that provoked
it; every delivery notification instead carries the server-chosen sequence
number (the constant 1), independent of the request. -/
theorem seq_echo (st : ServerState) (pdu : Pdu) (o : OutPdu)
    (ho : o ∈ (handleData st pdu).2) :
    (isNotification o = false → outSeq o = pdu.header.sequence_number) ∧
    (isNotification o = true → outSeq o = 1) :=
  ⟨handleData_echo_seq st pdu o ho, handleData_deliver_seq st pdu o ho⟩

/-- Witness for C7: the two outbound commands of a successful submit with
sequence number 42 — the acknowledgment echoes 42, the notification
carries 1. -/
theorem seq_echo_wit :
    ((isNotification (OutPdu.submitSMResp 42 0) = false →
        outSeq (OutPdu.submitSMResp 42 0) = submitPduW.header.sequence_number) ∧
      (isNotification (OutPdu.submitSMResp 42 0) = true →
        outSeq (OutPdu.submitSMResp 42 0) = 1)) ∧
    ((isNotification (OutPdu.deliverSM 1 (deliveryText 0 "t")) = false →
        outSeq (OutPdu.deliverSM 1 (deliveryText 0 "t"))
          = submitPduW.header.sequence_number) ∧
      (isNotification (OutPdu.deliverSM 1 (deliveryText 0 "t")) = true →
        outSeq (OutPdu.deliverSM 1 (deliveryText 0 "t")) = 1)) :=
  ⟨seq_echo stW submitPduW (OutPdu.submitSMResp 42 0) (by decide),
    seq_echo stW submitPduW (OutPdu.deliverSM 1 (deliveryText 0 "t")) (by decide)⟩

/-- Claim C8: message-identifier uniqueness.  For every connection state
and every sequence of at least two successfully dispatched submit commands,
the submit-acknowledgments carry one identifier per submit, at least two of
them, and the identifiers are pairwise distinct (the fresh-identifier
supply modelling `uuid.uuid4()` never repeats a draw). -/
theorem submit_ids_distinct (st : ServerState) (pdus : List Pdu)
    (hall : ∀ q ∈ pdus, q.header.command_id = "submit_sm" ∧
      q.header.command_status = "ESME_ROK")
    (hN : 2 ≤ pdus.length) :
    (messageIds (runPdus st pdus).2).length = pdus.length ∧
      2 ≤ (messageIds (runPdus st pdus).2).length ∧
      (messageIds (runPdus st pdus).2).Nodup := by
  rw [runPdus_submit_ids pdus st hall]
  exact ⟨by simp, by simpa using hN, List.nodup_range' _ _⟩

/-- Witness for C8: two consecutive successful submits on a fresh
connection yield two distinct identifiers. -/
theorem submit_ids_distinct_wit :
    (messageIds (runPdus stW [submitPduW, submitPduW2]).2).length = 2 ∧
      2 ≤ (messageIds (runPdus stW [submitPduW, submitPduW2]).2).length ∧
      (messageIds (runPdus stW [submitPduW, submitPduW2]).2).Nodup :=
  submit_ids_distinct stW [submitPduW, submitPduW2] (by decide) (by decide)

/-- Claim C9 (implicit): if at least 16 bytes are buffered and the first 4
bytes declare length 0, `popData` returns an empty frame and leaves the
buffer unchanged, so the extract-until-not-available loop of `dataReceived`
never terminates on such a buffer. -/
theorem zero_decl_loops (s : List Nat) (h16 : 16 ≤ s.length)
    (h0 : commandLength s = 0) :
    popData s = (some [], s) ∧ ¬ DrainTerminating s := by
  have hpop : popData s = (some [], s) := by
    have hx := popData_of_complete s h16 (by omega)
    rw [h0] at hx
    simpa using hx
  refine ⟨hpop, ?_⟩
  rintro ⟨fs, r, hdr⟩
  exact no_drain_of_stutter s fs r hdr hpop

/-- Witness for C9: sixteen zero bytes. -/
theorem zero_decl_loops_wit :
    popData (List.replicate 16 0) = (some [], List.replicate 16 0) ∧
      ¬ DrainTerminating (List.replicate 16 0) :=
  zero_decl_loops (List.replicate 16 0) (by decide) (by decide)

/-- Claim C10 (implicit): every delivery notification produced across any
run of dispatched commands carries the constant sequence number 1,
whatever the requests and however many submits came before. -/
theorem delivery_seq_constant (st : ServerState) (pdus : List Pdu) (sq : Nat)
    (m : String) (h : OutPdu.deliverSM sq m ∈ (runPdus st pdus).2) : sq = 1 :=
  run_deliver_seq pdus st sq m h

/-- Witness for C10: the delivery notification of a concrete successful
submit carries sequence number 1. -/
theorem delivery_seq_constant_wit : (1 : Nat) = 1 :=
  delivery_seq_constant stW [submitPduW] 1 (deliveryText 0 "t") (by decide)

end Vumi
